import Mathlib

/-!
# Verification of the shillelagh-gristapi cache and HTTP-client core

Shallow embedding of `src/shillelagh_gristapi/cache.py` (MemoryCache,
SQLiteCache) and `src/shillelagh_gristapi/http.py` (`_freeze`, `_make_key`,
`_key_to_text`, `_retry_adapter`, `GristClient.iter_records`), together with
theorems settling the specification claims about TTL expiry, LRU eviction,
cache-key stability, parameter normalization and retry policy.

Python values occurring as request parameters and cached payloads are
modelled by the inductive type `PyVal` (None, bool, int, str, list, tuple,
dict).  Python dicts are modelled as insertion-ordered association lists of
`String × PyVal`; a genuine Python dict never has duplicate keys, so theorems
that depend on that invariant carry a `Nodup` hypothesis.  Timestamps
(`time.time()` results) and TTLs are modelled as integers: the code only
adds TTLs to timestamps and compares the results, so the embedding is
faithful on those operations.
-/

/-- A Python value, as passed around by the client and stored in the caches. -/
inductive PyVal where
  | none : PyVal
  | bool : Bool → PyVal
  | int : Int → PyVal
  | str : String → PyVal
  | list : List PyVal → PyVal
  | tuple : List PyVal → PyVal
  | dict : List (String × PyVal) → PyVal

mutual

/-- Decidable equality for `PyVal` (the `deriving` handler does not support
this nested inductive, so it is written out). -/
def PyVal.decEq : (a b : PyVal) → Decidable (a = b)
  | .none, .none => isTrue rfl
  | .bool x, .bool y =>
      if h : x = y then isTrue (by rw [h])
      else isFalse (fun he => h (by injection he))
  | .int x, .int y =>
      if h : x = y then isTrue (by rw [h])
      else isFalse (fun he => h (by injection he))
  | .str x, .str y =>
      if h : x = y then isTrue (by rw [h])
      else isFalse (fun he => h (by injection he))
  | .list xs, .list ys =>
      match decEqPyList xs ys with
      | isTrue h => isTrue (by rw [h])
      | isFalse h => isFalse (fun he => h (by injection he))
  | .tuple xs, .tuple ys =>
      match decEqPyList xs ys with
      | isTrue h => isTrue (by rw [h])
      | isFalse h => isFalse (fun he => h (by injection he))
  | .dict es, .dict fs =>
      match decEqPyEntries es fs with
      | isTrue h => isTrue (by rw [h])
      | isFalse h => isFalse (fun he => h (by injection he))
  | .none, .bool _ | .none, .int _ | .none, .str _
  | .none, .list _ | .none, .tuple _ | .none, .dict _
  | .bool _, .none | .bool _, .int _ | .bool _, .str _
  | .bool _, .list _ | .bool _, .tuple _ | .bool _, .dict _
  | .int _, .none | .int _, .bool _ | .int _, .str _
  | .int _, .list _ | .int _, .tuple _ | .int _, .dict _
  | .str _, .none | .str _, .bool _ | .str _, .int _
  | .str _, .list _ | .str _, .tuple _ | .str _, .dict _
  | .list _, .none | .list _, .bool _ | .list _, .int _
  | .list _, .str _ | .list _, .tuple _ | .list _, .dict _
  | .tuple _, .none | .tuple _, .bool _ | .tuple _, .int _
  | .tuple _, .str _ | .tuple _, .list _ | .tuple _, .dict _
  | .dict _, .none | .dict _, .bool _ | .dict _, .int _
  | .dict _, .str _ | .dict _, .list _ | .dict _, .tuple _ =>
      isFalse (fun he => nomatch he)

/-- Decidable equality for lists of `PyVal`. -/
def decEqPyList : (xs ys : List PyVal) → Decidable (xs = ys)
  | [], [] => isTrue rfl
  | [], _ :: _ => isFalse (fun he => nomatch he)
  | _ :: _, [] => isFalse (fun he => nomatch he)
  | x :: xs, y :: ys =>
      match PyVal.decEq x y with
      | isFalse h => isFalse (fun he => h (by injection he))
      | isTrue h1 =>
          match decEqPyList xs ys with
          | isTrue h2 => isTrue (by rw [h1, h2])
          | isFalse h2 => isFalse (fun he => h2 (by injection he))

/-- Decidable equality for dict entry lists. -/
def decEqPyEntries : (es fs : List (String × PyVal)) → Decidable (es = fs)
  | [], [] => isTrue rfl
  | [], _ :: _ => isFalse (fun he => nomatch he)
  | _ :: _, [] => isFalse (fun he => nomatch he)
  | (k, v) :: es, (k', v') :: fs =>
      if hk : k = k' then
        match PyVal.decEq v v' with
        | isFalse h =>
            isFalse (fun he => h (by
              injection he with h1 h2
              injection h1))
        | isTrue h1 =>
            match decEqPyEntries es fs with
            | isTrue h2 => isTrue (by rw [hk, h1, h2])
            | isFalse h2 => isFalse (fun he => h2 (by injection he))
      else
        isFalse (fun he => hk (by
          injection he with h1 h2
          injection h1))

end

instance : DecidableEq PyVal := PyVal.decEq

/-- `d.get(k)` on an insertion-ordered Python dict: value of the first
(and, in a real dict, only) entry whose key is `k`. -/
def lookupA (q : List (String × PyVal)) (k : String) : Option PyVal :=
  match q with
  | [] => Option.none
  | (k', v) :: rest => if k' = k then some v else lookupA rest k

/-- `d[k] = v` on an insertion-ordered Python dict: overwrite in place if the
key is present, otherwise append the new entry at the end. -/
def setA (q : List (String × PyVal)) (k : String) (v : PyVal) :
    List (String × PyVal) :=
  match q with
  | [] => [(k, v)]
  | (k', v') :: rest =>
      if k' = k then (k', v) :: rest else (k', v') :: setA rest k v

/-- `d.setdefault(k, v)`: insert `v` at the end only when `k` is absent. -/
def setdefaultA (q : List (String × PyVal)) (k : String) (v : PyVal) :
    List (String × PyVal) :=
  match lookupA q k with
  | some _ => q
  | Option.none => q ++ [(k, v)]

/-- One lowercase hexadecimal digit. -/
def hexDigit (n : Nat) : Char :=
  if n < 10 then Char.ofNat (48 + n) else Char.ofNat (87 + n)

/-- Four-digit lowercase hexadecimal rendering, as in JSON `\uXXXX` escapes. -/
def hex4 (n : Nat) : String :=
  String.mk [hexDigit (n / 4096 % 16), hexDigit (n / 256 % 16),
             hexDigit (n / 16 % 16), hexDigit (n % 16)]

/-- Escape one character the way `json.dumps` does: `"` and `\` get a
backslash, the usual control-character shorthands apply, other control
characters become `\u00xx`, and with `ensure_ascii=True` every character
above `~` becomes `\uXXXX` (a surrogate pair above `0xFFFF`). -/
def escapeChar (ensureAscii : Bool) (ch : Char) : String :=
  if ch = '"' then "\\\""
  else if ch = '\\' then "\\\\"
  else if ch = '\n' then "\\n"
  else if ch = '\r' then "\\r"
  else if ch = '\t' then "\\t"
  else if ch = '\x08' then "\\b"
  else if ch = '\x0c' then "\\f"
  else if ch.toNat < 32 then "\\u" ++ hex4 ch.toNat
  else if ensureAscii && 126 < ch.toNat then
    if ch.toNat ≤ 65535 then "\\u" ++ hex4 ch.toNat
    else
      "\\u" ++ hex4 (55296 + (ch.toNat - 65536) / 1024) ++
      "\\u" ++ hex4 (56320 + (ch.toNat - 65536) % 1024)
  else String.singleton ch

/-- A JSON string literal for `s`, escaped per `escapeChar`. -/
def jsonQuote (ensureAscii : Bool) (s : String) : String :=
  "\"" ++ String.join (s.data.map (escapeChar ensureAscii)) ++ "\""

/-- `", ".join`, the default `json.dumps` item separator. -/
def joinComma (parts : List String) : String :=
  String.intercalate ", " parts

mutual

/-- `json.dumps(v)` with the default separators; the flag selects
`ensure_ascii`.  Lists and tuples both serialize as JSON arrays, dicts as
JSON objects in insertion order (`sort_keys` is never passed in the source). -/
def PyVal.dumpsWith : Bool → PyVal → String
  | _, .none => "null"
  | _, .bool true => "true"
  | _, .bool false => "false"
  | _, .int n => toString n
  | ea, .str s => jsonQuote ea s
  | ea, .list xs => "[" ++ joinComma (dumpsListWith ea xs) ++ "]"
  | ea, .tuple xs => "[" ++ joinComma (dumpsListWith ea xs) ++ "]"
  | ea, .dict es => "\x7b" ++ joinComma (dumpsEntriesWith ea es) ++ "\x7d"

/-- Serialize the elements of a JSON array. -/
def dumpsListWith : Bool → List PyVal → List String
  | _, [] => []
  | ea, x :: xs => PyVal.dumpsWith ea x :: dumpsListWith ea xs

/-- Serialize the `"key": value` members of a JSON object. -/
def dumpsEntriesWith : Bool → List (String × PyVal) → List String
  | _, [] => []
  | ea, (k, v) :: es =>
      (jsonQuote ea k ++ ": " ++ PyVal.dumpsWith ea v) :: dumpsEntriesWith ea es

end

/-- `json.dumps(v)` with default options (`ensure_ascii=True`). -/
def PyVal.dumps (v : PyVal) : String := PyVal.dumpsWith true v

/-- A cache key as produced by `GristClient._make_key`: the operation name
paired with the tuple of frozen parts. -/
abbrev CKey : Type := String × List PyVal

/-- Lexicographic comparison of char sequences by code point — Python's
`str` comparison (and the semantics of Lean's `String` order, in an
executable form). -/
def strLeB : List Char → List Char → Bool
  | [], _ => true
  | _ :: _, [] => false
  | a :: as, b :: bs =>
      if a < b then true
      else if b < a then false
      else strLeB as bs

/-- `a <= b` on Python strings. -/
def keyLe (a b : String) : Bool := strLeB a.data b.data

/-- Pair-list sort used to model `sorted((k, _freeze(v)) for k, v in ...)`.
Python compares the pairs lexicographically; since dict keys are distinct the
comparison never reaches the second component, so sorting by key alone
computes the same list. -/
def sortPairs (l : List (String × PyVal)) : List (String × PyVal) :=
  l.insertionSort (fun a b => keyLe a.1 b.1 = true)

mutual

/-- `_freeze` from http.py: a mapping becomes the sorted tuple of
`(key, frozen value)` pairs, lists/tuples (and sets, not modelled here)
become tuples of frozen elements in order, scalars pass through. -/
def freeze : PyVal → PyVal
  | .dict es => .tuple (sortPairs (freezeEntries es) |>.map
      (fun p => PyVal.tuple [PyVal.str p.1, p.2]))
  | .list xs => .tuple (freezeList xs)
  | .tuple xs => .tuple (freezeList xs)
  | v => v

/-- Freeze every element of a list/tuple. -/
def freezeList : List PyVal → List PyVal
  | [] => []
  | x :: xs => freeze x :: freezeList xs

/-- Freeze the value of every dict entry, keeping insertion order. -/
def freezeEntries : List (String × PyVal) → List (String × PyVal)
  | [] => []
  | (k, v) :: es => (k, freeze v) :: freezeEntries es

end

/-- `GristClient._make_key(name, *parts)`. -/
def make_key (name : String) (parts : List PyVal) : CKey :=
  (name, parts.map freeze)

/-- `_key_to_text` from cache.py: `json.dumps([name, parts],
ensure_ascii=False, sort_keys=False)`. -/
def key_to_text (key : CKey) : String :=
  PyVal.dumpsWith false (.list [.str key.1, .tuple key.2])

/-- Escape one character inside a Python string repr with quote character
`qc`: backslash and the quote get a backslash, `\n`/`\r`/`\t` their
shorthands, other control characters become `\xXX`. -/
def reprEscapeChar (qc : Char) (ch : Char) : String :=
  if ch = '\\' then "\\\\"
  else if ch = qc then "\\" ++ String.singleton qc
  else if ch = '\n' then "\\n"
  else if ch = '\r' then "\\r"
  else if ch = '\t' then "\\t"
  else if ch.toNat < 32 then "\\x" ++ String.mk [hexDigit (ch.toNat / 16), hexDigit (ch.toNat % 16)]
  else String.singleton ch

/-- `repr(s)` for a Python str: single quotes, unless the string contains a
single quote but no double quote. -/
def pyReprStr (s : String) : String :=
  let qc := if s.contains '\'' && !(s.contains '"') then '"' else '\''
  String.singleton qc ++ String.join (s.data.map (reprEscapeChar qc)) ++ String.singleton qc

mutual

/-- `repr(v)` for the modelled Python values (containers render their
elements with `repr`, tuples of length one carry a trailing comma). -/
def pyRepr : PyVal → String
  | .none => "None"
  | .bool true => "True"
  | .bool false => "False"
  | .int n => toString n
  | .str s => pyReprStr s
  | .list xs => "[" ++ joinComma (pyReprList xs) ++ "]"
  | .tuple [x] => "(" ++ pyRepr x ++ ",)"
  | .tuple xs => "(" ++ joinComma (pyReprList xs) ++ ")"
  | .dict es => "\x7b" ++ joinComma (pyReprEntries es) ++ "\x7d"

/-- `repr` of each element of a list. -/
def pyReprList : List PyVal → List String
  | [] => []
  | x :: xs => pyRepr x :: pyReprList xs

/-- `repr` of each `key: value` member of a dict. -/
def pyReprEntries : List (String × PyVal) → List String
  | [] => []
  | (k, v) :: es => (pyReprStr k ++ ": " ++ pyRepr v) :: pyReprEntries es

end

/-- `str(v)`: the string itself for a str, `repr` otherwise (for the types
modelled here Python's `str` coincides with `repr` on non-strings). -/
def pyStr (v : PyVal) : String :=
  match v with
  | .str s => s
  | v => pyRepr v

/-- `stats()` result common to both backends (`path` is only reported by the
SQLite backend). -/
structure CacheStats where
  backend : String
  path : Option String
  size : Nat
  hits : Nat
  misses : Nat
  maxsize : Nat
deriving DecidableEq, Repr

/-! ## MemoryCache (cache.py lines 25-87)

`self._data` is an `OrderedDict` keyed by cache keys holding
`(expires_at, value)` pairs; it is modelled as an insertion-ordered list
with (by the dict invariant) unique keys, oldest position first.  The lock
serializes every operation, so each method is a plain state transformer.
Values are `PyVal`, all of which are JSON-serializable, so the
`json.dumps(value)` probe in `set` never raises and the skip branch is
unreachable in the model. -/

/-- `self._data.get(key)`. -/
def findEntry (k : CKey) : List (CKey × Int × PyVal) → Option (Int × PyVal)
  | [] => Option.none
  | (k', e, v) :: rest => if k' = k then some (e, v) else findEntry k rest

/-- `self._data.pop(key, None)`: drop the binding of `k`, keeping order.
(A dict holds at most one binding per key, so removing every match is the
same as removing the first.) -/
def eraseKey (k : CKey) : List (CKey × Int × PyVal) → List (CKey × Int × PyVal)
  | [] => []
  | (k', e, v) :: rest =>
      if k' = k then eraseKey k rest else (k', e, v) :: eraseKey k rest

/-- In-process TTL + LRU cache (`MemoryCache`). -/
structure MemoryCache where
  data : List (CKey × Int × PyVal)
  maxsize : Nat
  hits : Nat
  misses : Nat
deriving DecidableEq

/-- `MemoryCache(maxsize)`: fresh empty cache. -/
def MemoryCache.empty (maxsize : Nat) : MemoryCache :=
  ⟨[], maxsize, 0, 0⟩

/-- `MemoryCache.get`: absent → miss; expired (`expires_at < now`) → purge
and miss; otherwise move the entry to the most-recently-used end and hit. -/
def MemoryCache.get (c : MemoryCache) (now : Int) (k : CKey) :
    Option PyVal × MemoryCache :=
  match findEntry k c.data with
  | Option.none => (Option.none, { c with misses := c.misses + 1 })
  | some (e, v) =>
      if e < now then
        (Option.none, { c with data := eraseKey k c.data, misses := c.misses + 1 })
      else
        (some v,
         { c with data := eraseKey k c.data ++ [(k, e, v)], hits := c.hits + 1 })

/-- `MemoryCache.set`: no-op for `ttl <= 0`; otherwise store
`(now + ttl, value)` at the most-recently-used end and pop least-recently-used
entries from the front while the size exceeds `maxsize`. -/
def MemoryCache.set (c : MemoryCache) (now : Int) (k : CKey) (v : PyVal)
    (ttl : Int) : MemoryCache :=
  if ttl ≤ 0 then c
  else
    let d := eraseKey k c.data ++ [(k, now + ttl, v)]
    { c with data := d.drop (d.length - c.maxsize) }

/-- `MemoryCache.clear`: drop all entries and reset both counters. -/
def MemoryCache.clear (c : MemoryCache) : MemoryCache :=
  { c with data := [], hits := 0, misses := 0 }

/-- `MemoryCache.stats`. -/
def MemoryCache.stats (c : MemoryCache) : CacheStats :=
  ⟨"memory", Option.none, c.data.length, c.hits, c.misses, c.maxsize⟩

/-- One client-visible cache operation. -/
inductive CacheOp where
  | get (now : Int) (k : CKey)
  | set (now : Int) (k : CKey) (v : PyVal) (ttl : Int)
  | clear

/-- Apply one operation to a `MemoryCache` (the value returned by `get` is
discarded; only the state matters for the size invariant). -/
def MemoryCache.applyOp (c : MemoryCache) : CacheOp → MemoryCache
  | .get now k => (c.get now k).2
  | .set now k v ttl => c.set now k v ttl
  | .clear => c.clear

/-- Run a sequence of operations left to right. -/
def MemoryCache.run (c : MemoryCache) : List CacheOp → MemoryCache
  | [] => c
  | op :: ops => (c.applyOp op).run ops

/-! ## SQLiteCache (cache.py lines 95-280)

The table `cache(key_text PRIMARY KEY, expires_at, last_access, value_json)`
is modelled as a list of rows in physical order (inserts append, upserts
update in place).  Every public method runs under the store's lock, so each
is a plain state transformer.  The JSON decoder used by `get`
(`json.loads`) is standard-library code, so it is passed in as a parameter
`dec`; the encoder is `json.dumps(value, ensure_ascii=False)`, i.e.
`PyVal.dumpsWith false`, which is total on `PyVal`, so the
"not JSON-serializable, skipping cache" branch of `set` is unreachable in
the model. -/

/-- One row of the `cache` table. -/
structure SRow where
  key_text : String
  expires_at : Int
  last_access : Int
  value_json : String
deriving DecidableEq, Repr

/-- `SELECT expires_at, value_json FROM cache WHERE key_text = ?` (the
primary key makes at most one row match; the model returns the first). -/
def findRow (kt : String) : List SRow → Option SRow
  | [] => Option.none
  | r :: rest => if r.key_text = kt then some r else findRow kt rest

/-- `DELETE FROM cache WHERE key_text = ?`. -/
def deleteRow (kt : String) : List SRow → List SRow
  | [] => []
  | r :: rest => if r.key_text = kt then deleteRow kt rest
                 else r :: deleteRow kt rest

/-- `UPDATE cache SET last_access = ? WHERE key_text = ?`. -/
def touchRow (kt : String) (now : Int) : List SRow → List SRow
  | [] => []
  | r :: rest =>
      (if r.key_text = kt then { r with last_access := now } else r)
        :: touchRow kt now rest

/-- `INSERT ... ON CONFLICT(key_text) DO UPDATE SET ...`: overwrite the
conflicting row in place, else append. -/
def upsertRow (nr : SRow) : List SRow → List SRow
  | [] => [nr]
  | r :: rest => if r.key_text = nr.key_text then nr :: rest
                 else r :: upsertRow nr rest

/-- Smallest `last_access` among the rows, if any. -/
def minLastAccess : List SRow → Option Int
  | [] => Option.none
  | r :: rest =>
      match minLastAccess rest with
      | Option.none => some r.last_access
      | some m => some (min r.last_access m)

/-- Remove the first row achieving the minimal `last_access` (one step of
`ORDER BY last_access ASC LIMIT n` deletion; ties broken by physical order,
which SQLite leaves arbitrary and the spec allows as a stable tie-break). -/
def removeOneOldest (rows : List SRow) : List SRow :=
  match minLastAccess rows with
  | Option.none => rows
  | some m =>
      match rows with
      | [] => []
      | r :: rest =>
          if r.last_access = m then rest else r :: removeOneOldest rest

/-- Delete the `n` rows with the oldest `last_access`. -/
def deleteOldest : Nat → List SRow → List SRow
  | 0, rows => rows
  | n + 1, rows => deleteOldest n (removeOneOldest rows)

/-- `SQLiteCache._prune_if_needed`: when the row count exceeds `maxsize`,
delete `count - maxsize` rows, oldest `last_access` first. -/
def prune_if_needed (maxsize : Nat) (rows : List SRow) : List SRow :=
  if rows.length ≤ maxsize then rows
  else deleteOldest (rows.length - maxsize) rows

/-- SQLite-backed TTL + LRU cache (`SQLiteCache`); hit/miss counters live in
the Python object, not in the database file. -/
structure SQLiteCache where
  path : String
  rows : List SRow
  maxsize : Nat
  hits : Nat
  misses : Nat
deriving DecidableEq, Repr

/-- `SQLiteCache.get`: row absent → miss; expired (`expires_at < now`) →
delete row and miss; otherwise touch `last_access`, then decode the stored
JSON text — a failed decode deletes the corrupted row and counts as a miss
(never an error), a successful decode is a hit. -/
def SQLiteCache.get (dec : String → Option PyVal) (c : SQLiteCache)
    (now : Int) (key : CKey) : Option PyVal × SQLiteCache :=
  let kt := key_to_text key
  match findRow kt c.rows with
  | Option.none => (Option.none, { c with misses := c.misses + 1 })
  | some r =>
      if r.expires_at < now then
        (Option.none, { c with rows := deleteRow kt c.rows,
                               misses := c.misses + 1 })
      else
        let rows1 := touchRow kt now c.rows
        match dec r.value_json with
        | Option.none =>
            (Option.none, { c with rows := deleteRow kt rows1,
                                   misses := c.misses + 1 })
        | some v => (some v, { c with rows := rows1, hits := c.hits + 1 })

/-- `SQLiteCache.set`: no-op for `ttl <= 0`; otherwise upsert the row with
`expires_at = now + ttl`, `last_access = now`, then prune to `maxsize`. -/
def SQLiteCache.set (c : SQLiteCache) (now : Int) (key : CKey) (v : PyVal)
    (ttl : Int) : SQLiteCache :=
  if ttl ≤ 0 then c
  else
    let kt := key_to_text key
    let rows1 := upsertRow ⟨kt, now + ttl, now, PyVal.dumpsWith false v⟩ c.rows
    { c with rows := prune_if_needed c.maxsize rows1 }

/-- `SQLiteCache.clear`: `DELETE FROM cache` — and nothing else; in
particular the hit/miss counters are left untouched. -/
def SQLiteCache.clear (c : SQLiteCache) : SQLiteCache :=
  { c with rows := [] }

/-- `SQLiteCache.stats`. -/
def SQLiteCache.stats (c : SQLiteCache) : CacheStats :=
  ⟨"sqlite", some c.path, c.rows.length, c.hits, c.misses, c.maxsize⟩

/-! ## Retry adapter (http.py lines 30-45) -/

/-- The fields of the `urllib3 Retry` policy that `_retry_adapter`
configures (backoff factor 0.5 is kept as a rational). -/
structure RetryPolicy where
  total : Nat
  backoff_factor : ℚ
  status_forcelist : List Nat
  allowed_methods : List String
  respect_retry_after_header : Bool
  raise_on_status : Bool
deriving DecidableEq

/-- The default per-request timeout (`DEFAULT_TIMEOUT = 10` seconds). -/
def DEFAULT_TIMEOUT : ℚ := 10

/-- The retry policy constructed by `_retry_adapter`. -/
def retry_adapter_policy : RetryPolicy :=
  { total := 5
    backoff_factor := 1 / 2
    status_forcelist := [429, 500, 502, 503, 504]
    allowed_methods := ["GET", "POST", "PATCH", "DELETE"]
    respect_retry_after_header := true
    raise_on_status := false }

/-- `TimeoutAdapter.send` does `kwargs.setdefault("timeout", timeout)`: the
caller's timeout wins, otherwise the adapter's fixed default applies. -/
def effectiveTimeout (adapterTimeout : ℚ) (callerTimeout : Option ℚ) : ℚ :=
  match callerTimeout with
  | some t => t
  | Option.none => adapterTimeout

/-! ## GristClient.iter_records (http.py lines 294-382)

The method is modelled as a pure function of its arguments, the memory
cache backend state, and the transport.  The transport stands for
`self.session.get(url, params=q).json()["records"]`: a function from the
document id, table id and final query parameters to the decoded `records`
array (each record a JSON object, i.e. an entry list).  The result carries
the yielded rows, the new cache state, and the number of outbound HTTP
calls made (0 or 1). -/

/-- Lines 337-339: `filt = q.get("filter")`; when it is a mapping, replace
it by `json.dumps(dict(filt))` (default options, insertion order kept). -/
def normalizeFilter (q : List (String × PyVal)) : List (String × PyVal) :=
  match lookupA q "filter" with
  | some (.dict es) => setA q "filter" (.str (PyVal.dumps (.dict es)))
  | _ => q

/-- Lines 341-343: if `"manualSort" in str(q.get("sort", ""))` and `hidden`
is not already a key, set `q["hidden"] = True`. -/
def forceHidden (q : List (String × PyVal)) : List (String × PyVal) :=
  let sortText :=
    match lookupA q "sort" with
    | some v => pyStr v
    | Option.none => ""
  if "manualSort".data.IsInfix sortText.data ∧
      lookupA q "hidden" = Option.none
  then setA q "hidden" (.bool true) else q

/-- Lines 329-346: build `q` from `params`, default `sort` to `"id"`,
serialize a mapping-typed `filter`, force `hidden` when sorting by
`manualSort`, default `limit` to `0`.  `params` is a Python `Mapping`, so
its entries are assumed key-distinct. -/
def normalizeQuery (params : List (String × PyVal)) : List (String × PyVal) :=
  setdefaultA
    (forceHidden (normalizeFilter (setdefaultA params "sort" (.str "id"))))
    "limit" (.int 0)

/-- Line 349: the cache key is derived from the normalized query *before*
the `hidden` argument is merged into it. -/
def recordsKey (docId tableId : String) (q : List (String × PyVal)) : CKey :=
  make_key "iter_records" [.str docId, .str tableId, .dict q]

/-- Lines 356-359: merge the `hidden` argument into the outbound query as
the string `"true"` or `"false"` (overwriting any `hidden` set earlier). -/
def outboundQuery (hidden : Bool) (q : List (String × PyVal)) :
    List (String × PyVal) :=
  setA q "hidden" (.str (if hidden then "true" else "false"))

/-- Lines 369-375: flatten one record envelope: `row = dict(fields)`, plus
`row["id"] = rec.get("id")` when `include_id` (a truthy non-mapping `fields`
would raise in the source; it cannot occur in a decoded `records` payload). -/
def decodeRecord (includeId : Bool) (rec : List (String × PyVal)) :
    List (String × PyVal) :=
  let rid := (lookupA rec "id").getD .none
  let fields :=
    match lookupA rec "fields" with
    | some (.dict es) => es
    | _ => []
  if includeId then setA fields "id" rid else fields

/-- Convert each cached row back to a dict, failing on a non-mapping. -/
def asRowList : List PyVal → Option (List (List (String × PyVal)))
  | [] => some []
  | .dict es :: xs =>
      match asRowList xs with
      | some rows => some (es :: rows)
      | Option.none => Option.none
  | _ => Option.none

/-- Lines 352-353: `for row in cached: yield dict(row)` — each element of
the cached value must be a mapping; anything else raises `TypeError`. -/
def asRows : PyVal → Option (List (List (String × PyVal)))
  | .list xs => asRowList xs
  | _ => Option.none

/-- Result of one `iter_records` invocation. -/
structure IterResult where
  rows : List (List (String × PyVal))
  cache : MemoryCache
  calls : Nat
deriving DecidableEq

/-- `GristClient.iter_records` over the memory backend.  When
`records_ttl > 0` the cache is consulted (recording a hit or miss); a hit
yields the cached rows with no outbound call, a miss fetches through the
transport, decodes, stores the row list at `records_ttl`, and yields it.
When `records_ttl <= 0` the cache is bypassed entirely. -/
def iter_records (transport : String → String → List (String × PyVal) →
      List (List (String × PyVal)))
    (records_ttl : Int) (now : Int) (docId tableId : String) (hidden : Bool)
    (params : List (String × PyVal)) (includeId : Bool) (c : MemoryCache) :
    Except String IterResult :=
  let q := normalizeQuery params
  let key := recordsKey docId tableId q
  let gotten := if 0 < records_ttl then c.get now key else (Option.none, c)
  match gotten.1 with
  | some cached =>
      match asRows cached with
      | some rows => .ok ⟨rows, gotten.2, 0⟩
      | Option.none => .error "TypeError"
  | Option.none =>
      let rows := (transport docId tableId (outboundQuery hidden q)).map
        (decodeRecord includeId)
      let c2 :=
        if 0 < records_ttl then
          gotten.2.set now key (.list (rows.map PyVal.dict)) records_ttl
        else gotten.2
      .ok ⟨rows, c2, 1⟩

/-! ## Structural equality up to mapping key order

`PySim a b` says `a` and `b` are the same Python value except that
corresponding dicts (at any depth) may list their key-value pairs in
different orders.  This is the precondition of the key-stability claim. -/

mutual

/-- Same value up to dict entry order, at any depth.  The dict rule relates
`dict es` to `dict fs` when `fs` is a permutation of an entrywise-similar
copy of `es`; `es` must have distinct keys (always true of a Python dict). -/
inductive PySim : PyVal → PyVal → Prop where
  | none : PySim .none .none
  | bool (b : Bool) : PySim (.bool b) (.bool b)
  | int (n : Int) : PySim (.int n) (.int n)
  | str (s : String) : PySim (.str s) (.str s)
  | list : PySimList xs ys → PySim (.list xs) (.list ys)
  | tuple : PySimList xs ys → PySim (.tuple xs) (.tuple ys)
  | dict : PySimEntries es es' → es'.Perm fs → (es.map Prod.fst).Nodup →
      PySim (.dict es) (.dict fs)

/-- Elementwise similarity of list elements. -/
inductive PySimList : List PyVal → List PyVal → Prop where
  | nil : PySimList [] []
  | cons : PySim x y → PySimList xs ys → PySimList (x :: xs) (y :: ys)

/-- Entrywise similarity of dict entries: equal keys, similar values. -/
inductive PySimEntries :
    List (String × PyVal) → List (String × PyVal) → Prop where
  | nil : PySimEntries [] []
  | cons (k : String) : PySim v w → PySimEntries es fs →
      PySimEntries ((k, v) :: es) ((k, w) :: fs)

end

theorem strLeB_total : ∀ as bs : List Char,
    strLeB as bs = true ∨ strLeB bs as = true := by
  intro as
  induction as with
  | nil => intro bs; left; rfl
  | cons a as ih =>
      intro bs
      cases bs with
      | nil => right; rfl
      | cons b bs =>
          rcases lt_trichotomy a b with h | h | h
          · left; simp [strLeB, h]
          · subst h
            rcases ih bs with h2 | h2
            · left; simp [strLeB, lt_irrefl, h2]
            · right; simp [strLeB, lt_irrefl, h2]
          · right; simp [strLeB, h]

theorem strLeB_trans : ∀ as bs cs : List Char, strLeB as bs = true →
    strLeB bs cs = true → strLeB as cs = true := by
  intro as
  induction as with
  | nil => intro bs cs h1 h2; rfl
  | cons a as ih =>
      intro bs cs h1 h2
      cases bs with
      | nil => simp [strLeB] at h1
      | cons b bs =>
          cases cs with
          | nil => simp [strLeB] at h2
          | cons c cs =>
              rcases lt_trichotomy a b with hab | hab | hab
              · rcases lt_trichotomy b c with hbc | hbc | hbc
                · simp [strLeB, lt_trans hab hbc]
                · subst hbc; simp [strLeB, hab]
                · simp only [strLeB, hbc, if_false, lt_asymm hbc,
                    if_false] at h2
                  simp [strLeB, h2] at *
              · subst hab
                rcases lt_trichotomy a c with hac | hac | hac
                · simp [strLeB, hac]
                · subst hac
                  simp only [strLeB, lt_irrefl, if_false] at h1 h2 ⊢
                  exact ih bs cs h1 h2
                · simp only [strLeB, hac, lt_asymm hac, if_false] at h2
                  simp [h2] at *
              · simp only [strLeB, lt_asymm hab, hab, if_false] at h1
                simp [h1] at *

theorem strLeB_antisymm : ∀ as bs : List Char, strLeB as bs = true →
    strLeB bs as = true → as = bs := by
  intro as
  induction as with
  | nil =>
      intro bs h1 h2
      cases bs with
      | nil => rfl
      | cons b bs => simp [strLeB] at h2
  | cons a as ih =>
      intro bs h1 h2
      cases bs with
      | nil => simp [strLeB] at h1
      | cons b bs =>
          rcases lt_trichotomy a b with hab | hab | hab
          · simp only [strLeB, lt_asymm hab, hab, if_false] at h2
            simp at h2
          · subst hab
            simp only [strLeB, lt_irrefl, if_false] at h1 h2
            rw [ih bs h1 h2]
          · simp only [strLeB, lt_asymm hab, hab, if_false] at h1
            simp at h1

theorem keyLe_total (a b : String) : keyLe a b = true ∨ keyLe b a = true :=
  strLeB_total a.data b.data

theorem keyLe_trans {a b c : String} (h1 : keyLe a b = true)
    (h2 : keyLe b c = true) : keyLe a c = true :=
  strLeB_trans a.data b.data c.data h1 h2

theorem keyLe_antisymm {a b : String} (h1 : keyLe a b = true)
    (h2 : keyLe b a = true) : a = b := by
  apply String.ext
  exact strLeB_antisymm a.data b.data h1 h2

instance : IsTotal (String × PyVal) (fun a b => keyLe a.1 b.1 = true) :=
  ⟨fun a b => keyLe_total a.1 b.1⟩

instance : IsTrans (String × PyVal) (fun a b => keyLe a.1 b.1 = true) :=
  ⟨fun _ _ _ h1 h2 => keyLe_trans h1 h2⟩

instance : IsAntisymm (String × PyVal)
    (fun a b => keyLe a.1 b.1 = true ∧ a.1 ≠ b.1) :=
  ⟨fun _ _ h1 h2 => absurd (keyLe_antisymm h1.1 h2.1) h1.2⟩

/-- `sortPairs` permutes its input. -/
theorem sortPairs_perm (l : List (String × PyVal)) : (sortPairs l).Perm l :=
  List.perm_insertionSort _ l

/-- `sortPairs` sorts by key. -/
theorem sortPairs_sorted (l : List (String × PyVal)) :
    (sortPairs l).Sorted (fun a b => keyLe a.1 b.1 = true) :=
  List.sorted_insertionSort _ l

/-- A list of pairs with distinct keys, key-sorted, is strictly key-sorted. -/
theorem sorted_strict_of_nodup {l : List (String × PyVal)}
    (hs : l.Sorted (fun a b => keyLe a.1 b.1 = true))
    (hn : (l.map Prod.fst).Nodup) :
    l.Sorted (fun a b => keyLe a.1 b.1 = true ∧ a.1 ≠ b.1) := by
  have hne : l.Pairwise (fun a b => a.1 ≠ b.1) := List.pairwise_map.mp hn
  exact (hs.and hne).imp (fun h => h)

/-- Distinct-keyed permutations have the same key-sorted form: sorting is a
canonical form for dict entry lists. -/
theorem sortPairs_eq_of_perm {l1 l2 : List (String × PyVal)}
    (hp : l1.Perm l2) (hn : (l1.map Prod.fst).Nodup) :
    sortPairs l1 = sortPairs l2 := by
  have hp' : (sortPairs l1).Perm (sortPairs l2) :=
    (sortPairs_perm l1).trans (hp.trans (sortPairs_perm l2).symm)
  have hn1 : ((sortPairs l1).map Prod.fst).Nodup :=
    (((sortPairs_perm l1).map Prod.fst).nodup_iff).mpr hn
  have hn2 : ((sortPairs l2).map Prod.fst).Nodup :=
    ((hp'.map Prod.fst).nodup_iff).mp hn1
  exact List.eq_of_perm_of_sorted hp'
    (sorted_strict_of_nodup (sortPairs_sorted l1) hn1)
    (sorted_strict_of_nodup (sortPairs_sorted l2) hn2)

/-- `freezeList` is `List.map freeze`. -/
theorem freezeList_eq_map : ∀ xs : List PyVal, freezeList xs = xs.map freeze
  | [] => rfl
  | x :: xs => by rw [freezeList, List.map_cons, freezeList_eq_map xs]

/-- `freezeEntries` maps `freeze` over the values, keeping keys and order. -/
theorem freezeEntries_eq_map : ∀ es : List (String × PyVal),
    freezeEntries es = es.map (fun p => (p.1, freeze p.2))
  | [] => rfl
  | (k, v) :: es => by rw [freezeEntries, List.map_cons, freezeEntries_eq_map es]

/-- Entrywise-similar entry lists have the same keys. -/
theorem pySimEntries_keys : ∀ {es fs : List (String × PyVal)},
    PySimEntries es fs → es.map Prod.fst = fs.map Prod.fst
  | _, _, .nil => rfl
  | _, _, .cons k _ hrest => by
      rw [List.map_cons, List.map_cons, pySimEntries_keys hrest]

mutual

/-- `_freeze` is invariant under reordering of dict entries, at any depth:
similar values freeze to identical canonical forms. -/
theorem freeze_of_pySim : ∀ {a b : PyVal}, PySim a b → freeze a = freeze b
  | _, _, .none => rfl
  | _, _, .bool _ => rfl
  | _, _, .int _ => rfl
  | _, _, .str _ => rfl
  | _, _, .list h => by rw [freeze, freeze, freezeList_of_pySimList h]
  | _, _, .tuple h => by rw [freeze, freeze, freezeList_of_pySimList h]
  | _, _, @PySim.dict es es' fs hsim hperm hnodup => by
      rw [freeze, freeze]
      have h1 : freezeEntries es = freezeEntries es' :=
        freezeEntries_of_pySimEntries hsim
      have hperm' : (freezeEntries es').Perm (freezeEntries fs) := by
        rw [freezeEntries_eq_map, freezeEntries_eq_map]
        exact hperm.map _
      have hkeys : ((freezeEntries es).map Prod.fst).Nodup := by
        rw [freezeEntries_eq_map, List.map_map]
        exact hnodup
      have : sortPairs (freezeEntries es) = sortPairs (freezeEntries fs) :=
        sortPairs_eq_of_perm (h1 ▸ hperm') hkeys
      rw [this]

/-- Elementwise-similar lists freeze to identical tuples. -/
theorem freezeList_of_pySimList : ∀ {xs ys : List PyVal},
    PySimList xs ys → freezeList xs = freezeList ys
  | _, _, .nil => rfl
  | _, _, .cons h hrest => by
      rw [freezeList, freezeList, freeze_of_pySim h, freezeList_of_pySimList hrest]

/-- Entrywise-similar entry lists freeze to identical entry lists. -/
theorem freezeEntries_of_pySimEntries : ∀ {es fs : List (String × PyVal)},
    PySimEntries es fs → freezeEntries es = freezeEntries fs
  | _, _, .nil => rfl
  | _, _, .cons k h hrest => by
      rw [freezeEntries, freezeEntries, freeze_of_pySim h,
          freezeEntries_of_pySimEntries hrest]

end

/-- C2: for every operation name and every two mappings that contain
identical key-value pairs in different insertion order (or whose nested
collections differ only in mapping key order, as expressed by `PySim`),
`_make_key` produces equal cache keys, and equal keys serialize to
byte-identical key text via `_key_to_text`. -/
theorem make_key_order_invariant (name : String)
    (m1 m2 : List (String × PyVal)) (h : PySim (.dict m1) (.dict m2)) :
    make_key name [.dict m1] = make_key name [.dict m2] ∧
    key_to_text (make_key name [.dict m1]) =
      key_to_text (make_key name [.dict m2]) := by
  have hk : make_key name [.dict m1] = make_key name [.dict m2] := by
    unfold make_key
    rw [List.map_singleton, List.map_singleton, freeze_of_pySim h]
  exact ⟨hk, by rw [hk]⟩

/-- Witness for C2 at `m1 = [b ↦ 2, a ↦ 1]`, `m2 = [a ↦ 1, b ↦ 2]`. -/
theorem make_key_order_invariant_witness :
    make_key "list_fields" [.dict [("b", .int 2), ("a", .int 1)]] =
      make_key "list_fields" [.dict [("a", .int 1), ("b", .int 2)]] ∧
    key_to_text (make_key "list_fields" [.dict [("b", .int 2), ("a", .int 1)]]) =
      key_to_text (make_key "list_fields" [.dict [("a", .int 1), ("b", .int 2)]]) :=
  make_key_order_invariant "list_fields" _ _
    (PySim.dict
      (PySimEntries.cons "b" (PySim.int 2)
        (PySimEntries.cons "a" (PySim.int 1) PySimEntries.nil))
      (List.Perm.swap ("a", PyVal.int 1) ("b", PyVal.int 2) [])
      (by decide))

/-! ## Association-list and cache-state lemmas -/

theorem lookupA_setA_self (q : List (String × PyVal)) (k : String) (v : PyVal) :
    lookupA (setA q k v) k = some v := by
  induction q with
  | nil => simp [setA, lookupA]
  | cons p rest ih =>
      obtain ⟨k', v'⟩ := p
      by_cases h : k' = k
      · simp [setA, lookupA, h]
      · simp [setA, lookupA, h, ih]

theorem lookupA_setA_ne (q : List (String × PyVal)) {k k' : String}
    (v : PyVal) (h : k ≠ k') : lookupA (setA q k v) k' = lookupA q k' := by
  induction q with
  | nil => simp [setA, lookupA, h]
  | cons p rest ih =>
      obtain ⟨ka, va⟩ := p
      by_cases hk : ka = k
      · subst hk
        simp [setA, lookupA, h]
      · simp [setA, lookupA, hk, ih]

theorem lookupA_append (q r : List (String × PyVal)) (k : String) :
    lookupA (q ++ r) k =
      match lookupA q k with
      | some v => some v
      | Option.none => lookupA r k := by
  induction q with
  | nil => simp [lookupA]
  | cons p rest ih =>
      obtain ⟨ka, va⟩ := p
      by_cases hk : ka = k <;> simp [lookupA, hk, ih]

theorem lookupA_setdefaultA_ne (q : List (String × PyVal)) {k k' : String}
    (v : PyVal) (h : k ≠ k') :
    lookupA (setdefaultA q k v) k' = lookupA q k' := by
  unfold setdefaultA
  cases hq : lookupA q k with
  | some w => rfl
  | none =>
      rw [lookupA_append]
      cases hq' : lookupA q k' with
      | some w => rfl
      | none => simp [lookupA, h]

theorem lookupA_setdefaultA_of_none {q : List (String × PyVal)} {k : String}
    (v : PyVal) (h : lookupA q k = Option.none) :
    lookupA (setdefaultA q k v) k = some v := by
  unfold setdefaultA
  rw [h, lookupA_append, h]
  simp [lookupA]

theorem findEntry_eraseKey_self (k : CKey) :
    ∀ d, findEntry k (eraseKey k d) = Option.none := by
  intro d
  induction d with
  | nil => rfl
  | cons p rest ih =>
      obtain ⟨k', e, v⟩ := p
      by_cases h : k' = k <;> simp [eraseKey, findEntry, h, ih]

theorem eraseKey_length_le (k : CKey) :
    ∀ d, (eraseKey k d).length ≤ d.length := by
  intro d
  induction d with
  | nil => simp [eraseKey]
  | cons p rest ih =>
      obtain ⟨k', e, v⟩ := p
      by_cases h : k' = k <;> simp [eraseKey, h] <;> omega

theorem eraseKey_length_lt_of_find {k : CKey} :
    ∀ {d x}, findEntry k d = some x → (eraseKey k d).length < d.length := by
  intro d
  induction d with
  | nil => intro x h; simp [findEntry] at h
  | cons p rest ih =>
      intro x h
      obtain ⟨k', e, v⟩ := p
      by_cases hk : k' = k
      · simp only [eraseKey, hk, if_true, List.length_cons]
        exact Nat.lt_succ_of_le (eraseKey_length_le k rest)
      · simp only [findEntry, hk, if_false] at h
        simp only [eraseKey, hk, if_false, List.length_cons]
        exact Nat.succ_lt_succ (ih h)

theorem findRow_deleteRow_self (kt : String) :
    ∀ rows, findRow kt (deleteRow kt rows) = Option.none := by
  intro rows
  induction rows with
  | nil => rfl
  | cons r rest ih =>
      by_cases h : r.key_text = kt <;> simp [deleteRow, findRow, h, ih]

theorem deleteRow_length_le (kt : String) :
    ∀ rows, (deleteRow kt rows).length ≤ rows.length := by
  intro rows
  induction rows with
  | nil => simp [deleteRow]
  | cons r rest ih =>
      by_cases h : r.key_text = kt <;> simp [deleteRow, h] <;> omega

theorem deleteRow_length_lt_of_find {kt : String} :
    ∀ {rows r}, findRow kt rows = some r →
      (deleteRow kt rows).length < rows.length := by
  intro rows
  induction rows with
  | nil => intro r h; simp [findRow] at h
  | cons r0 rest ih =>
      intro r h
      by_cases hk : r0.key_text = kt
      · simp only [deleteRow, hk, if_true, List.length_cons]
        exact Nat.lt_succ_of_le (deleteRow_length_le kt rest)
      · simp only [findRow, hk, if_false] at h
        simp only [deleteRow, hk, if_false, List.length_cons]
        exact Nat.succ_lt_succ (ih h)

theorem touchRow_length (kt : String) (now : Int) :
    ∀ rows, (touchRow kt now rows).length = rows.length := by
  intro rows
  induction rows with
  | nil => rfl
  | cons r rest ih => simp [touchRow, ih]

theorem findRow_touchRow_self {kt : String} (now : Int) :
    ∀ {rows r}, findRow kt rows = some r →
      findRow kt (touchRow kt now rows) = some { r with last_access := now } := by
  intro rows
  induction rows with
  | nil => intro r h; simp [findRow] at h
  | cons r0 rest ih =>
      intro r h
      by_cases hk : r0.key_text = kt
      · simp only [findRow, hk, if_true, Option.some.injEq] at h
        subst h
        simp [touchRow, findRow, hk]
      · simp only [findRow, hk, if_false] at h
        simp [touchRow, findRow, hk, ih h]

theorem upsertRow_of_none {nr : SRow} :
    ∀ {rows}, findRow nr.key_text rows = Option.none →
      upsertRow nr rows = rows ++ [nr] := by
  intro rows
  induction rows with
  | nil => intro h; rfl
  | cons r rest ih =>
      intro h
      by_cases hk : r.key_text = nr.key_text
      · simp [findRow, hk] at h
      · simp only [findRow, hk, if_false] at h
        simp [upsertRow, hk, ih h]

theorem findRow_append (rows r2 : List SRow) (kt : String) :
    findRow kt (rows ++ r2) =
      match findRow kt rows with
      | some r => some r
      | Option.none => findRow kt r2 := by
  induction rows with
  | nil => simp [findRow]
  | cons r rest ih =>
      by_cases hk : r.key_text = kt <;> simp [findRow, hk, ih]

theorem prune_if_needed_noop {m : Nat} {rows : List SRow}
    (h : rows.length ≤ m) : prune_if_needed m rows = rows := by
  simp [prune_if_needed, h]

/-- C1 counterexample: both backends compare with a strict `expires_at < now`,
so an entry whose `expires_at` equals `now` (hence `expires_at <= now`) is
still returned by `get`, contradicting the claim that such an entry is
treated as absent. -/
theorem cache_expiry_claim_counterexample :
    (5 : Int) ≤ 5 ∧
    ((MemoryCache.mk [(("k", []), 5, PyVal.int 7)] 4 0 0).get 5 ("k", [])).1 =
      some (PyVal.int 7) ∧
    (SQLiteCache.get (fun _ => some (PyVal.int 7))
        (SQLiteCache.mk "p" [⟨key_to_text ("k", []), 5, 0, "7"⟩] 4 0 0)
        5 ("k", [])).1 = some (PyVal.int 7) := by
  refine ⟨by norm_num, ?_, ?_⟩ <;> rfl

/-- C1 (amended): an entry with `expires_at < now` (strictly) is treated as
absent by `get` on both backends — a miss is recorded and the entry purged —
and `get` returns a value only from an entry with `now ≤ expires_at`. -/
theorem cache_expiry_strict (now : Int) (k : CKey) (c : MemoryCache)
    (dec : String → Option PyVal) (sc : SQLiteCache) :
    (∀ e v, findEntry k c.data = some (e, v) → e < now →
      (c.get now k).1 = Option.none ∧
      findEntry k (c.get now k).2.data = Option.none ∧
      (c.get now k).2.misses = c.misses + 1) ∧
    (∀ v, (c.get now k).1 = some v →
      ∃ e, findEntry k c.data = some (e, v) ∧ now ≤ e) ∧
    (∀ r, findRow (key_to_text k) sc.rows = some r → r.expires_at < now →
      (SQLiteCache.get dec sc now k).1 = Option.none ∧
      findRow (key_to_text k) (SQLiteCache.get dec sc now k).2.rows =
        Option.none ∧
      (SQLiteCache.get dec sc now k).2.misses = sc.misses + 1) ∧
    (∀ v, (SQLiteCache.get dec sc now k).1 = some v →
      ∃ r, findRow (key_to_text k) sc.rows = some r ∧ now ≤ r.expires_at ∧
        dec r.value_json = some v) := by
  refine ⟨?_, ?_, ?_, ?_⟩
  · intro e v hf hlt
    simp [MemoryCache.get, hf, hlt, findEntry_eraseKey_self]
  · intro v hv
    unfold MemoryCache.get at hv
    cases hf : findEntry k c.data with
    | none => rw [hf] at hv; simp at hv
    | some p =>
        obtain ⟨e, w⟩ := p
        rw [hf] at hv
        by_cases hlt : e < now
        · simp [hlt] at hv
        · simp only [hlt, if_false] at hv
          simp only [Option.some.injEq] at hv
          exact ⟨e, by rw [hv], not_lt.mp hlt⟩
  · intro r hf hlt
    simp [SQLiteCache.get, hf, hlt, findRow_deleteRow_self]
  · intro v hv
    simp only [SQLiteCache.get] at hv
    cases hf : findRow (key_to_text k) sc.rows with
    | none => rw [hf] at hv; simp at hv
    | some r =>
        rw [hf] at hv
        by_cases hlt : r.expires_at < now
        · simp [hlt] at hv
        · simp only [hlt, if_false] at hv
          cases hd : dec r.value_json with
          | none => rw [hd] at hv; simp at hv
          | some w =>
              rw [hd] at hv
              simp at hv
              exact ⟨r, rfl, not_lt.mp hlt, by rw [hd, hv]⟩

/-- Witness for C1 at a concrete expired entry (`expires_at = 5 < now = 6`)
on both backends. -/
theorem cache_expiry_strict_witness :
    (((MemoryCache.mk [(("k", []), 5, PyVal.int 7)] 4 0 0).get 6 ("k", [])).1 =
        Option.none ∧
      findEntry ("k", [])
        ((MemoryCache.mk [(("k", []), 5, PyVal.int 7)] 4 0 0).get 6
          ("k", [])).2.data = Option.none ∧
      ((MemoryCache.mk [(("k", []), 5, PyVal.int 7)] 4 0 0).get 6
        ("k", [])).2.misses = 0 + 1) ∧
    ((SQLiteCache.get (fun _ => Option.none)
        (SQLiteCache.mk "p" [⟨key_to_text ("k", []), 5, 0, "7"⟩] 4 0 0)
        6 ("k", [])).1 = Option.none ∧
      findRow (key_to_text ("k", []))
        (SQLiteCache.get (fun _ => Option.none)
          (SQLiteCache.mk "p" [⟨key_to_text ("k", []), 5, 0, "7"⟩] 4 0 0)
          6 ("k", [])).2.rows = Option.none ∧
      (SQLiteCache.get (fun _ => Option.none)
        (SQLiteCache.mk "p" [⟨key_to_text ("k", []), 5, 0, "7"⟩] 4 0 0)
        6 ("k", [])).2.misses = 0 + 1) :=
  ⟨(cache_expiry_strict 6 ("k", [])
      (MemoryCache.mk [(("k", []), 5, PyVal.int 7)] 4 0 0)
      (fun _ => Option.none)
      (SQLiteCache.mk "p" [⟨key_to_text ("k", []), 5, 0, "7"⟩] 4 0 0)).1
      5 (PyVal.int 7) rfl (by norm_num),
   (cache_expiry_strict 6 ("k", [])
      (MemoryCache.mk [(("k", []), 5, PyVal.int 7)] 4 0 0)
      (fun _ => Option.none)
      (SQLiteCache.mk "p" [⟨key_to_text ("k", []), 5, 0, "7"⟩] 4 0 0)).2.2.1
      ⟨key_to_text ("k", []), 5, 0, "7"⟩ rfl (by norm_num)⟩

theorem applyOp_maxsize (c : MemoryCache) (op : CacheOp) :
    (c.applyOp op).maxsize = c.maxsize := by
  cases op with
  | get now k =>
      simp only [MemoryCache.applyOp, MemoryCache.get]
      cases findEntry k c.data with
      | none => rfl
      | some p =>
          obtain ⟨e, v⟩ := p
          by_cases h : e < now <;> simp [h]
  | set now k v ttl =>
      simp only [MemoryCache.applyOp, MemoryCache.set]
      by_cases h : ttl ≤ 0 <;> simp [h]
  | clear => rfl

theorem applyOp_size {c : MemoryCache} (op : CacheOp)
    (h : c.data.length ≤ c.maxsize) :
    (c.applyOp op).data.length ≤ c.maxsize := by
  cases op with
  | get now k =>
      simp only [MemoryCache.applyOp, MemoryCache.get]
      cases hf : findEntry k c.data with
      | none => exact h
      | some p =>
          obtain ⟨e, v⟩ := p
          by_cases hlt : e < now
          · simp only [hlt, if_true]
            exact le_trans (eraseKey_length_le k c.data) h
          · simp only [hlt, if_false, List.length_append, List.length_singleton]
            have := eraseKey_length_lt_of_find hf
            omega
  | set now k v ttl =>
      simp only [MemoryCache.applyOp, MemoryCache.set]
      by_cases httl : ttl ≤ 0
      · simp only [httl, if_true]; exact h
      · simp only [httl, if_false, List.length_drop]
        omega
  | clear => simp [MemoryCache.applyOp, MemoryCache.clear]

theorem run_size_le :
    ∀ (ops : List CacheOp) (c : MemoryCache), c.data.length ≤ c.maxsize →
      (c.run ops).data.length ≤ (c.run ops).maxsize := by
  intro ops
  induction ops with
  | nil => intro c h; exact h
  | cons op rest ih =>
      intro c h
      have hm := applyOp_maxsize c op
      have := ih (c.applyOp op) (by rw [hm]; exact applyOp_size op h)
      simpa [MemoryCache.run] using this

/-- C3: the entry count of a `MemoryCache` never exceeds `maxsize` after any
sequence of get/set/clear operations; a hit moves the accessed entry to the
most-recently-used (last) position; and with `maxsize = 2`: inserting A, B, C
with no intervening gets evicts A (keeping B, C), while with A, B present,
`get(A)` followed by `set(C)` evicts B, not A. -/
theorem memory_lru_bound_and_order :
    (∀ (ops : List CacheOp) (c : MemoryCache), c.data.length ≤ c.maxsize →
        (c.run ops).data.length ≤ (c.run ops).maxsize) ∧
    (∀ (c : MemoryCache) (now : Int) (k : CKey) (e : Int) (v : PyVal),
        findEntry k c.data = some (e, v) → ¬ e < now →
        (c.get now k).2.data = eraseKey k c.data ++ [(k, e, v)]) ∧
    (∀ (A B C : CKey) (vA vB vC : PyVal), A ≠ B → A ≠ C → B ≠ C →
        ((((MemoryCache.empty 2).set 0 A vA 10).set 0 B vB 10).set 0 C
            vC 10).data.map Prod.fst = [B, C]) ∧
    (∀ (A B C : CKey) (vA vB vC : PyVal) (h0 m0 : Nat),
        A ≠ B → A ≠ C → B ≠ C →
        ((((MemoryCache.mk [(A, 10, vA), (B, 20, vB)] 2 h0 m0).get 1 A).2).set
            1 C vC 10).data.map Prod.fst = [A, C]) := by
  refine ⟨run_size_le, ?_, ?_, ?_⟩
  · intro c now k e v hf hlt
    simp [MemoryCache.get, hf, hlt]
  · intro A B C vA vB vC hAB hAC hBC
    simp [MemoryCache.empty, MemoryCache.set, eraseKey, hAB, hAC, hBC]
  · intro A B C vA vB vC h0 m0 hAB hAC hBC
    simp [MemoryCache.get, MemoryCache.set, eraseKey, findEntry, hAB, hAC,
          hBC, Ne.symm hAB]

/-- Witness for C3 at concrete keys and a concrete operation sequence. -/
theorem memory_lru_bound_and_order_witness :
    (((MemoryCache.empty 1).run
        [.set 0 ("a", []) (.int 1) 5, .set 1 ("b", []) (.int 2) 5]).data.length ≤
      ((MemoryCache.empty 1).run
        [.set 0 ("a", []) (.int 1) 5, .set 1 ("b", []) (.int 2) 5]).maxsize) ∧
    ((((MemoryCache.empty 2).set 0 ("a", []) (.int 1) 10).set 0 ("b", [])
        (.int 2) 10).set 0 ("c", []) (.int 3) 10).data.map Prod.fst =
      [("b", []), ("c", [])] ∧
    ((((MemoryCache.mk [(("a", []), 10, .int 1), (("b", []), 20, .int 2)]
        2 0 0).get 1 ("a", [])).2).set 1 ("c", []) (.int 3) 10).data.map
      Prod.fst = [("a", []), ("c", [])] :=
  ⟨memory_lru_bound_and_order.1
      [.set 0 ("a", []) (.int 1) 5, .set 1 ("b", []) (.int 2) 5]
      (MemoryCache.empty 1) (by decide),
   memory_lru_bound_and_order.2.2.1 ("a", []) ("b", []) ("c", [])
      (.int 1) (.int 2) (.int 3) (by decide) (by decide) (by decide),
   memory_lru_bound_and_order.2.2.2 ("a", []) ("b", []) ("c", [])
      (.int 1) (.int 2) (.int 3) 0 0 (by decide) (by decide) (by decide)⟩

/-- C7 counterexample: `SQLiteCache.clear` only deletes the rows; the hit and
miss counters are not reset, so `stats()` immediately after `clear()` can
report nonzero hits/misses, contradicting the claimed common contract. -/
theorem sqlite_clear_counters_counterexample :
    ((SQLiteCache.mk "p" [⟨"kt", 10, 0, "null"⟩] 4 3 2).clear).stats.size = 0 ∧
    ((SQLiteCache.mk "p" [⟨"kt", 10, 0, "null"⟩] 4 3 2).clear).stats.hits = 3 ∧
    ¬ (((SQLiteCache.mk "p" [⟨"kt", 10, 0, "null"⟩] 4 3 2).clear).stats.hits = 0 ∧
       ((SQLiteCache.mk "p" [⟨"kt", 10, 0, "null"⟩] 4 3 2).clear).stats.misses = 0) := by
  refine ⟨rfl, rfl, ?_⟩
  intro h
  exact absurd h.1 (by norm_num [SQLiteCache.clear, SQLiteCache.stats])

/-- C7 (amended): `clear()` removes all entries on both backends; the memory
backend also resets its hit/miss counters to zero, while the persistent
backend leaves its counters unchanged (so only the memory backend's `stats`
reports hits 0 and misses 0 right after `clear`). -/
theorem clear_contract (c : MemoryCache) (sc : SQLiteCache) :
    c.clear.data = [] ∧
    c.clear.stats = ⟨"memory", Option.none, 0, 0, 0, c.maxsize⟩ ∧
    sc.clear.rows = [] ∧
    sc.clear.stats = ⟨"sqlite", some sc.path, 0, sc.hits, sc.misses,
      sc.maxsize⟩ :=
  ⟨rfl, rfl, rfl, rfl⟩

/-- Witness for C7 at concrete states. -/
theorem clear_contract_witness :
    (MemoryCache.mk [(("a", []), 3, .int 1)] 8 5 6).clear.data = [] ∧
    (MemoryCache.mk [(("a", []), 3, .int 1)] 8 5 6).clear.stats =
      ⟨"memory", Option.none, 0, 0, 0, 8⟩ ∧
    (SQLiteCache.mk "p" [⟨"kt", 10, 0, "null"⟩] 4 3 2).clear.rows = [] ∧
    (SQLiteCache.mk "p" [⟨"kt", 10, 0, "null"⟩] 4 3 2).clear.stats =
      ⟨"sqlite", some "p", 0, 3, 2, 4⟩ :=
  clear_contract (MemoryCache.mk [(("a", []), 3, .int 1)] 8 5 6)
    (SQLiteCache.mk "p" [⟨"kt", 10, 0, "null"⟩] 4 3 2)

/-- C8: on both backends, `set` with `ttl <= 0` is a complete no-op — the
state (entries, counters, order) is unchanged — and a key that was absent
before remains absent for a subsequent `get`. -/
theorem set_nonpositive_ttl_noop (now now2 : Int) (k : CKey) (v : PyVal)
    (ttl : Int) (c : MemoryCache) (sc : SQLiteCache)
    (dec : String → Option PyVal) (h : ttl ≤ 0) :
    c.set now k v ttl = c ∧
    sc.set now k v ttl = sc ∧
    (findEntry k c.data = Option.none →
      ((c.set now k v ttl).get now2 k).1 = Option.none) ∧
    (findRow (key_to_text k) sc.rows = Option.none →
      (SQLiteCache.get dec (sc.set now k v ttl) now2 k).1 = Option.none) := by
  have hm : c.set now k v ttl = c := by
    unfold MemoryCache.set; rw [if_pos h]
  have hs : sc.set now k v ttl = sc := by
    unfold SQLiteCache.set; rw [if_pos h]
  refine ⟨hm, hs, ?_, ?_⟩
  · intro habs
    rw [hm]
    simp [MemoryCache.get, habs]
  · intro habs
    rw [hs]
    simp [SQLiteCache.get, habs]

/-- Witness for C8 at `ttl = 0` on concrete states with the key absent. -/
theorem set_nonpositive_ttl_noop_witness :
    (MemoryCache.empty 4).set 1 ("a", []) (.int 9) 0 = MemoryCache.empty 4 ∧
    (SQLiteCache.mk "p" [] 4 0 0).set 1 ("a", []) (.int 9) 0 =
      SQLiteCache.mk "p" [] 4 0 0 ∧
    (((MemoryCache.empty 4).set 1 ("a", []) (.int 9) 0).get 2
      ("a", [])).1 = Option.none ∧
    (SQLiteCache.get (fun _ => Option.none)
      ((SQLiteCache.mk "p" [] 4 0 0).set 1 ("a", []) (.int 9) 0) 2
      ("a", [])).1 = Option.none :=
  ⟨(set_nonpositive_ttl_noop 1 2 ("a", []) (.int 9) 0 (MemoryCache.empty 4)
      (SQLiteCache.mk "p" [] 4 0 0) (fun _ => Option.none) (by norm_num)).1,
   (set_nonpositive_ttl_noop 1 2 ("a", []) (.int 9) 0 (MemoryCache.empty 4)
      (SQLiteCache.mk "p" [] 4 0 0) (fun _ => Option.none) (by norm_num)).2.1,
   (set_nonpositive_ttl_noop 1 2 ("a", []) (.int 9) 0 (MemoryCache.empty 4)
      (SQLiteCache.mk "p" [] 4 0 0) (fun _ => Option.none) (by norm_num)).2.2.1
      rfl,
   (set_nonpositive_ttl_noop 1 2 ("a", []) (.int 9) 0 (MemoryCache.empty 4)
      (SQLiteCache.mk "p" [] 4 0 0) (fun _ => Option.none) (by norm_num)).2.2.2
      rfl⟩

theorem sqlite_set_pos (c : SQLiteCache) (now : Int) (k : CKey)
    (v : PyVal) (ttl : Int) (h : ¬ ttl ≤ 0) :
    c.set now k v ttl =
      { c with
          rows := (prune_if_needed c.maxsize
            (upsertRow
              ⟨key_to_text k, now + ttl, now, PyVal.dumpsWith false v⟩
              c.rows)) } := by
  unfold SQLiteCache.set
  rw [if_neg h]

/-- C9: on the persistent backend, when the stored value text for a key
fails to decode, `get` returns absent (no error value exists in its type),
records a miss (hits unchanged), deletes the corrupted row, and a subsequent
`set` for the same key (with positive TTL, within capacity) lands cleanly:
the fresh row is found afterwards. -/
theorem sqlite_corruption_recovery (dec : String → Option PyVal)
    (sc : SQLiteCache) (now now2 : Int) (k : CKey) (v : PyVal) (ttl : Int)
    (r : SRow)
    (hfind : findRow (key_to_text k) sc.rows = some r)
    (hexp : ¬ r.expires_at < now)
    (hdec : dec r.value_json = Option.none)
    (hcap : sc.rows.length ≤ sc.maxsize)
    (httl : 0 < ttl) :
    (SQLiteCache.get dec sc now k).1 = Option.none ∧
    (SQLiteCache.get dec sc now k).2.misses = sc.misses + 1 ∧
    (SQLiteCache.get dec sc now k).2.hits = sc.hits ∧
    findRow (key_to_text k) (SQLiteCache.get dec sc now k).2.rows =
      Option.none ∧
    findRow (key_to_text k)
        (((SQLiteCache.get dec sc now k).2).set now2 k v ttl).rows =
      some ⟨key_to_text k, now2 + ttl, now2, PyVal.dumpsWith false v⟩ := by
  have hstate : SQLiteCache.get dec sc now k =
      (Option.none,
        { sc with
            rows := deleteRow (key_to_text k)
              (touchRow (key_to_text k) now sc.rows),
            misses := sc.misses + 1 }) := by
    simp only [SQLiteCache.get]
    rw [hfind]
    simp only [hexp, if_false]
    rw [hdec]
  have hgone : findRow (key_to_text k)
      (deleteRow (key_to_text k) (touchRow (key_to_text k) now sc.rows)) =
      Option.none := findRow_deleteRow_self _ _
  have hlen : (deleteRow (key_to_text k)
      (touchRow (key_to_text k) now sc.rows)).length < sc.rows.length := by
    have h1 := deleteRow_length_lt_of_find (findRow_touchRow_self now hfind)
    rw [touchRow_length] at h1
    exact h1
  refine ⟨by rw [hstate], by rw [hstate], by rw [hstate],
          by rw [hstate]; exact hgone, ?_⟩
  rw [hstate]
  show findRow (key_to_text k)
      ((SQLiteCache.mk sc.path
        (deleteRow (key_to_text k) (touchRow (key_to_text k) now sc.rows))
        sc.maxsize sc.hits (sc.misses + 1)).set now2 k v ttl).rows =
    some ⟨key_to_text k, now2 + ttl, now2, PyVal.dumpsWith false v⟩
  rw [sqlite_set_pos _ _ _ _ _ (by omega)]
  show findRow (key_to_text k)
      (prune_if_needed sc.maxsize
        (upsertRow ⟨key_to_text k, now2 + ttl, now2, PyVal.dumpsWith false v⟩
          (deleteRow (key_to_text k)
            (touchRow (key_to_text k) now sc.rows)))) =
    some ⟨key_to_text k, now2 + ttl, now2, PyVal.dumpsWith false v⟩
  rw [upsertRow_of_none hgone]
  rw [prune_if_needed_noop (by
    simp only [List.length_append, List.length_singleton]
    omega)]
  rw [findRow_append, hgone]
  simp [findRow]

/-- Witness for C9 at a concrete corrupted row. -/
theorem sqlite_corruption_recovery_witness :
    (SQLiteCache.get (fun _ => Option.none)
      (SQLiteCache.mk "p" [⟨key_to_text ("k", []), 9, 0, "oops"⟩] 4 0 0)
      3 ("k", [])).1 = Option.none ∧
    (SQLiteCache.get (fun _ => Option.none)
      (SQLiteCache.mk "p" [⟨key_to_text ("k", []), 9, 0, "oops"⟩] 4 0 0)
      3 ("k", [])).2.misses = 0 + 1 ∧
    (SQLiteCache.get (fun _ => Option.none)
      (SQLiteCache.mk "p" [⟨key_to_text ("k", []), 9, 0, "oops"⟩] 4 0 0)
      3 ("k", [])).2.hits = 0 ∧
    findRow (key_to_text ("k", []))
      (SQLiteCache.get (fun _ => Option.none)
        (SQLiteCache.mk "p" [⟨key_to_text ("k", []), 9, 0, "oops"⟩] 4 0 0)
        3 ("k", [])).2.rows = Option.none ∧
    findRow (key_to_text ("k", []))
      (((SQLiteCache.get (fun _ => Option.none)
        (SQLiteCache.mk "p" [⟨key_to_text ("k", []), 9, 0, "oops"⟩] 4 0 0)
        3 ("k", [])).2).set 5 ("k", []) (.int 7) 60).rows =
      some ⟨key_to_text ("k", []), 5 + 60, 5, PyVal.dumpsWith false (.int 7)⟩ :=
  sqlite_corruption_recovery (fun _ => Option.none)
    (SQLiteCache.mk "p" [⟨key_to_text ("k", []), 9, 0, "oops"⟩] 4 0 0)
    3 5 ("k", []) (.int 7) 60 ⟨key_to_text ("k", []), 9, 0, "oops"⟩
    rfl (by norm_num) rfl (by norm_num) (by norm_num)

theorem normalizeFilter_of_dict {q : List (String × PyVal)}
    {es : List (String × PyVal)}
    (h : lookupA q "filter" = some (.dict es)) :
    normalizeFilter q = setA q "filter" (.str (PyVal.dumps (.dict es))) := by
  unfold normalizeFilter
  rw [h]

theorem lookupA_normalizeFilter_ne (q : List (String × PyVal)) {k' : String}
    (h : "filter" ≠ k') :
    lookupA (normalizeFilter q) k' = lookupA q k' := by
  unfold normalizeFilter
  cases hf : lookupA q "filter" with
  | none => rfl
  | some v =>
      cases v with
      | dict es => exact lookupA_setA_ne q _ h
      | none => rfl
      | bool b => rfl
      | int n => rfl
      | str s => rfl
      | list xs => rfl
      | tuple xs => rfl

theorem lookupA_forceHidden_ne (q : List (String × PyVal)) {k' : String}
    (h : "hidden" ≠ k') :
    lookupA (forceHidden q) k' = lookupA q k' := by
  simp only [forceHidden]
  split
  · exact lookupA_setA_ne q _ h
  · rfl

/-- C5 counterexample: the filter mapping is serialized with plain
`json.dumps`, which preserves insertion order — two filters with identical
key-value pairs in different insertion order serialize to different text and
produce different cache keys, contradicting the claimed canonicalization. -/
theorem filter_key_order_counterexample :
    PyVal.dumps (.dict [("a", .int 1), ("b", .int 2)]) ≠
      PyVal.dumps (.dict [("b", .int 2), ("a", .int 1)]) ∧
    recordsKey "d" "t"
        (normalizeQuery [("filter", .dict [("a", .int 1), ("b", .int 2)])]) ≠
      recordsKey "d" "t"
        (normalizeQuery [("filter", .dict [("b", .int 2), ("a", .int 1)])]) :=
  ⟨by decide, by decide⟩

/-- C5 (amended): before cache-key derivation and the outbound call,
`iter_records` normalizes its parameters: a mapping-typed `filter` is
serialized to a JSON string that preserves the mapping's insertion order
(it is not canonicalized, so reordered filters may yield different keys),
`sort` defaults to `"id"` when the caller specified none, and `limit`
defaults to `0` (all rows) when none was requested. -/
theorem iter_records_normalization (params : List (String × PyVal)) :
    (∀ es, lookupA params "filter" = some (.dict es) →
      lookupA (normalizeQuery params) "filter" =
        some (.str (PyVal.dumps (.dict es)))) ∧
    (lookupA params "sort" = Option.none →
      lookupA (normalizeQuery params) "sort" = some (.str "id")) ∧
    (lookupA params "limit" = Option.none →
      lookupA (normalizeQuery params) "limit" = some (.int 0)) := by
  refine ⟨?_, ?_, ?_⟩
  · intro es hf
    have h1 : lookupA (setdefaultA params "sort" (.str "id")) "filter" =
        some (.dict es) := by
      rw [lookupA_setdefaultA_ne params _ (by decide)]
      exact hf
    unfold normalizeQuery
    rw [lookupA_setdefaultA_ne _ _ (by decide : ("limit" : String) ≠ "filter")]
    rw [lookupA_forceHidden_ne _ (by decide : ("hidden" : String) ≠ "filter")]
    rw [normalizeFilter_of_dict h1]
    exact lookupA_setA_self _ _ _
  · intro hs
    unfold normalizeQuery
    rw [lookupA_setdefaultA_ne _ _ (by decide : ("limit" : String) ≠ "sort")]
    rw [lookupA_forceHidden_ne _ (by decide : ("hidden" : String) ≠ "sort")]
    rw [lookupA_normalizeFilter_ne _ (by decide : ("filter" : String) ≠ "sort")]
    exact lookupA_setdefaultA_of_none _ hs
  · intro hl
    have h1 : lookupA
        (forceHidden (normalizeFilter (setdefaultA params "sort" (.str "id"))))
        "limit" = Option.none := by
      rw [lookupA_forceHidden_ne _ (by decide : ("hidden" : String) ≠ "limit")]
      rw [lookupA_normalizeFilter_ne _
        (by decide : ("filter" : String) ≠ "limit")]
      rw [lookupA_setdefaultA_ne params _
        (by decide : ("sort" : String) ≠ "limit")]
      exact hl
    unfold normalizeQuery
    exact lookupA_setdefaultA_of_none _ h1

/-- Witness for C5 on a one-entry parameter mapping carrying only a filter. -/
theorem iter_records_normalization_witness :
    lookupA (normalizeQuery [("filter", .dict [("a", .int 1)])]) "filter" =
      some (.str (PyVal.dumps (.dict [("a", .int 1)]))) ∧
    lookupA (normalizeQuery [("filter", .dict [("a", .int 1)])]) "sort" =
      some (.str "id") ∧
    lookupA (normalizeQuery [("filter", .dict [("a", .int 1)])]) "limit" =
      some (.int 0) :=
  ⟨(iter_records_normalization [("filter", .dict [("a", .int 1)])]).1
      [("a", .int 1)] rfl,
   (iter_records_normalization [("filter", .dict [("a", .int 1)])]).2.1 rfl,
   (iter_records_normalization [("filter", .dict [("a", .int 1)])]).2.2 rfl⟩

/-- C6 counterexample: `_retry_adapter` allows retries for `POST`, `PATCH`
and `DELETE` as well, so retrying is not restricted to idempotent read
methods (GET/HEAD/OPTIONS). -/
theorem retry_methods_counterexample :
    "POST" ∈ retry_adapter_policy.allowed_methods ∧
    "PATCH" ∈ retry_adapter_policy.allowed_methods ∧
    "DELETE" ∈ retry_adapter_policy.allowed_methods ∧
    ¬ (∀ me ∈ retry_adapter_policy.allowed_methods,
        me = "GET" ∨ me = "HEAD" ∨ me = "OPTIONS") := by
  refine ⟨by decide, by decide, by decide, ?_⟩
  intro h
  rcases h "POST" (by decide) with h1 | h1 | h1 <;> simp at h1

/-- C6 (amended): the retrying transport is configured to retry on exactly
the status codes 429, 500, 502, 503, 504, for the methods GET, POST, PATCH
and DELETE (not only idempotent reads), with a cap of 5 total attempts,
exponential backoff factor 0.5, honoring a server-provided `Retry-After`
hint, and a fixed default per-request timeout of 10 seconds that applies
whenever the caller sets none. -/
theorem retry_policy_config :
    retry_adapter_policy.status_forcelist = [429, 500, 502, 503, 504] ∧
    retry_adapter_policy.allowed_methods = ["GET", "POST", "PATCH", "DELETE"] ∧
    retry_adapter_policy.total = 5 ∧
    retry_adapter_policy.backoff_factor = 1 / 2 ∧
    retry_adapter_policy.respect_retry_after_header = true ∧
    retry_adapter_policy.raise_on_status = false ∧
    DEFAULT_TIMEOUT = 10 ∧
    effectiveTimeout DEFAULT_TIMEOUT Option.none = 10 ∧
    (∀ t : ℚ, effectiveTimeout DEFAULT_TIMEOUT (some t) = t) := by
  refine ⟨rfl, rfl, rfl, rfl, rfl, rfl, rfl, rfl, fun t => rfl⟩

/-- Witness for C6's universally quantified timeout clause at `t = 7`. -/
theorem retry_policy_config_witness :
    effectiveTimeout DEFAULT_TIMEOUT (some 7) = 7 :=
  retry_policy_config.2.2.2.2.2.2.2.2 7

theorem asRowList_map_dict :
    ∀ rows : List (List (String × PyVal)),
      asRowList (rows.map PyVal.dict) = some rows := by
  intro rows
  induction rows with
  | nil => rfl
  | cons r rest ih => simp [asRowList, ih]

theorem asRows_map_dict (rows : List (List (String × PyVal))) :
    asRows (.list (rows.map PyVal.dict)) = some rows := by
  simp [asRows, asRowList_map_dict]

theorem memget_empty (m : Nat) (now : Int) (key : CKey) :
    MemoryCache.get (MemoryCache.empty m) now key =
      (Option.none, MemoryCache.mk [] m 0 1) := by
  simp [MemoryCache.get, MemoryCache.empty, findEntry]

theorem memset_single (m : Nat) (now : Int) (key : CKey) (val : PyVal)
    (ttl : Int) (misses : Nat) (httl : ¬ ttl ≤ 0) (hm : 1 ≤ m) :
    (MemoryCache.mk [] m 0 misses).set now key val ttl =
      MemoryCache.mk [(key, now + ttl, val)] m 0 misses := by
  simp [MemoryCache.set, eraseKey, httl, Nat.sub_eq_zero_of_le hm]

theorem memget_single_hit (m : Nat) (now : Int) (key : CKey) (e : Int)
    (val : PyVal) (hits misses : Nat) (h : ¬ e < now) :
    (MemoryCache.mk [(key, e, val)] m hits misses).get now key =
      (some val, MemoryCache.mk [(key, e, val)] m (hits + 1) misses) := by
  simp [MemoryCache.get, findEntry, eraseKey, h]

/-- Shared computation for C4/C10: from an empty memory cache with capacity,
a first `iter_records` call misses and fetches (one outbound call), and a
second call with the same doc/table/params within the TTL window is served
from the cache (no outbound call) with the same rows — whatever the `hidden`
arguments of the two calls, since the key is derived before `hidden` is
merged. -/
theorem iterRecordsMissThenHit
    (transport : String → String → List (String × PyVal) →
      List (List (String × PyVal)))
    (ttl t1 t2 : Int) (docId tableId : String) (h1 h2 : Bool)
    (params : List (String × PyVal)) (includeId : Bool) (m : Nat)
    (httl : 0 < ttl) (hm : 1 ≤ m) (ht2 : t2 ≤ t1 + ttl) :
    ∃ r1 r2 : IterResult,
      iter_records transport ttl t1 docId tableId h1 params includeId
        (MemoryCache.empty m) = .ok r1 ∧
      iter_records transport ttl t2 docId tableId h2 params includeId
        r1.cache = .ok r2 ∧
      r1.calls = 1 ∧ r2.calls = 0 ∧ r2.rows = r1.rows ∧
      r1.rows = (transport docId tableId
        (outboundQuery h1 (normalizeQuery params))).map
        (decodeRecord includeId) := by
  have httl' : ¬ ttl ≤ 0 := by omega
  have hexp : ¬ t1 + ttl < t2 := by omega
  refine ⟨⟨(transport docId tableId
        (outboundQuery h1 (normalizeQuery params))).map (decodeRecord includeId),
      MemoryCache.mk [(recordsKey docId tableId (normalizeQuery params), t1 + ttl,
        PyVal.list (((transport docId tableId
          (outboundQuery h1 (normalizeQuery params))).map
            (decodeRecord includeId)).map PyVal.dict))] m 0 1, 1⟩,
    ⟨(transport docId tableId
        (outboundQuery h1 (normalizeQuery params))).map (decodeRecord includeId),
      MemoryCache.mk [(recordsKey docId tableId (normalizeQuery params), t1 + ttl,
        PyVal.list (((transport docId tableId
          (outboundQuery h1 (normalizeQuery params))).map
            (decodeRecord includeId)).map PyVal.dict))] m 1 1, 0⟩,
    ?_, ?_, rfl, rfl, rfl, rfl⟩
  · simp only [iter_records, httl, if_true, memget_empty]
    rw [memset_single m t1 _ _ ttl 1 httl' hm]
  · simp only [iter_records, httl, if_true]
    rw [memget_single_hit m t2 _ (t1 + ttl) _ 0 1 hexp]
    simp only [asRows_map_dict]

/-- C4: with record caching enabled (`records_ttl > 0`, capacity at least 1),
calling `iter_records` twice with identical arguments within the TTL window
issues exactly one outbound network call in total — the second call is
answered from the cache without contacting the transport — and both calls
return identical decoded row sequences. -/
theorem iter_records_single_call
    (transport : String → String → List (String × PyVal) →
      List (List (String × PyVal)))
    (ttl t1 t2 : Int) (docId tableId : String) (hidden : Bool)
    (params : List (String × PyVal)) (includeId : Bool) (m : Nat)
    (httl : 0 < ttl) (hm : 1 ≤ m) (ht1 : t1 ≤ t2) (ht2 : t2 ≤ t1 + ttl) :
    ∃ r1 r2 : IterResult,
      iter_records transport ttl t1 docId tableId hidden params includeId
        (MemoryCache.empty m) = .ok r1 ∧
      iter_records transport ttl t2 docId tableId hidden params includeId
        r1.cache = .ok r2 ∧
      r1.calls + r2.calls = 1 ∧ r2.calls = 0 ∧ r2.rows = r1.rows := by
  obtain ⟨r1, r2, hc1, hc2, e1, e2, e3, _⟩ :=
    iterRecordsMissThenHit transport ttl t1 t2 docId tableId hidden hidden
      params includeId m httl hm ht2
  exact ⟨r1, r2, hc1, hc2, by omega, e2, e3⟩

/-- Witness for C4 at a concrete stub transport and arguments. -/
theorem iter_records_single_call_witness :
    ∃ r1 r2 : IterResult,
      iter_records (fun _ _ _ =>
          [[("id", PyVal.int 1), ("fields", PyVal.dict [("x", PyVal.int 5)])]])
        60 0 "d" "t" true [] true (MemoryCache.empty 4) = .ok r1 ∧
      iter_records (fun _ _ _ =>
          [[("id", PyVal.int 1), ("fields", PyVal.dict [("x", PyVal.int 5)])]])
        60 30 "d" "t" true [] true r1.cache = .ok r2 ∧
      r1.calls + r2.calls = 1 ∧ r2.calls = 0 ∧ r2.rows = r1.rows :=
  iter_records_single_call
    (fun _ _ _ =>
      [[("id", PyVal.int 1), ("fields", PyVal.dict [("x", PyVal.int 5)])]])
    60 0 30 "d" "t" true [] true 4 (by norm_num) (by norm_num) (by norm_num)
    (by norm_num)

/-- C10: the cache key of `iter_records` is built from the normalized query
before the `hidden` argument is merged, so two calls differing only in
`hidden` share a key: a result cached by a `hidden = true` call is returned
verbatim (no outbound call) for a `hidden = false` call, even though on a
miss the two calls would issue different outbound requests. -/
theorem iter_records_hidden_not_in_key
    (transport : String → String → List (String × PyVal) →
      List (List (String × PyVal)))
    (ttl t1 t2 : Int) (docId tableId : String)
    (params : List (String × PyVal)) (includeId : Bool) (m : Nat)
    (httl : 0 < ttl) (hm : 1 ≤ m) (ht2 : t2 ≤ t1 + ttl) :
    ∃ r1 r2 : IterResult,
      iter_records transport ttl t1 docId tableId true params includeId
        (MemoryCache.empty m) = .ok r1 ∧
      iter_records transport ttl t2 docId tableId false params includeId
        r1.cache = .ok r2 ∧
      r1.calls = 1 ∧ r2.calls = 0 ∧ r2.rows = r1.rows ∧
      outboundQuery true (normalizeQuery params) ≠
        outboundQuery false (normalizeQuery params) := by
  obtain ⟨r1, r2, hc1, hc2, e1, e2, e3, _⟩ :=
    iterRecordsMissThenHit transport ttl t1 t2 docId tableId true false
      params includeId m httl hm ht2
  refine ⟨r1, r2, hc1, hc2, e1, e2, e3, ?_⟩
  intro he
  have htrue : lookupA (outboundQuery true (normalizeQuery params)) "hidden" =
      some (.str "true") := by
    simp [outboundQuery, lookupA_setA_self]
  have hfalse : lookupA (outboundQuery false (normalizeQuery params)) "hidden" =
      some (.str "false") := by
    simp [outboundQuery, lookupA_setA_self]
  rw [he, hfalse] at htrue
  simp at htrue

/-- Witness for C10 at a concrete stub transport and arguments. -/
theorem iter_records_hidden_not_in_key_witness :
    ∃ r1 r2 : IterResult,
      iter_records (fun _ _ _ =>
          [[("id", PyVal.int 1), ("fields", PyVal.dict [("x", PyVal.int 5)])]])
        60 0 "d" "t" true [] true (MemoryCache.empty 4) = .ok r1 ∧
      iter_records (fun _ _ _ =>
          [[("id", PyVal.int 1), ("fields", PyVal.dict [("x", PyVal.int 5)])]])
        60 30 "d" "t" false [] true r1.cache = .ok r2 ∧
      r1.calls = 1 ∧ r2.calls = 0 ∧ r2.rows = r1.rows ∧
      outboundQuery true (normalizeQuery []) ≠
        outboundQuery false (normalizeQuery []) :=
  iter_records_hidden_not_in_key
    (fun _ _ _ =>
      [[("id", PyVal.int 1), ("fields", PyVal.dict [("x", PyVal.int 5)])]])
    60 0 30 "d" "t" [] true 4 (by norm_num) (by norm_num) (by norm_num)
